import Mathlib

/-!
Verification of go-httpclient (httpclient.go), a CURL-style HTTP client facade.
Go maps are modelled as association lists where the rightmost binding for a key
wins (Go map assignment overwrites); `mlookup` reads a key and `mset` writes one.
Go `panic` is modelled as `none`, Go `(value, error)` returns as `Except`.
-/

deriving instance DecidableEq for Except

namespace GoHttpClient

/-- Read a key from an association-list map; the last (rightmost) binding wins,
matching Go map-write-then-read semantics. -/
def mlookup {K V : Type} [DecidableEq K] : List (K × V) → K → Option V
  | [], _ => none
  | (k, v) :: rest, q =>
    match mlookup rest q with
    | some w => some w
    | none => if k = q then some v else none

/-- Write a key into an association-list map (Go `m[k] = v`). -/
def mset {K V : Type} [DecidableEq K] (m : List (K × V)) (k : K) (v : V) : List (K × V) :=
  m ++ [(k, v)]

/-- Copy all entries of `m` into `acc` (the body of Go's merge loops:
`for k, v := range m { rst[k] = v }`). -/
def insertAll {K V : Type} [DecidableEq K] (acc m : List (K × V)) : List (K × V) :=
  m.foldl (fun r kv => mset r kv.1 kv.2) acc

/-! ## Option registry (constants from httpclient.go) -/

def VERSION : String := "0.3.0"

def USERAGENT : String := "go-httpclient v" ++ VERSION

def PROXY_HTTP : Int := 0
def PROXY_SOCKS4 : Int := 4
def PROXY_SOCKS5 : Int := 5
def PROXY_SOCKS4A : Int := 6

def OPT_AUTOREFERER : Int := 58
def OPT_FOLLOWLOCATION : Int := 52
def OPT_CONNECTTIMEOUT : Int := 78
def OPT_CONNECTTIMEOUT_MS : Int := 156
def OPT_MAXREDIRS : Int := 68
def OPT_PROXYTYPE : Int := 101
def OPT_TIMEOUT : Int := 13
def OPT_TIMEOUT_MS : Int := 155
def OPT_COOKIEJAR : Int := 10082
def OPT_INTERFACE : Int := 10062
def OPT_PROXY : Int := 10004
def OPT_REFERER : Int := 10016
def OPT_USERAGENT : Int := 10018
def OPT_REDIRECT_POLICY : Int := 100000
def OPT_PROXY_FUNC : Int := 100001

/-- The dynamic values stored in a Go `map[int]interface{}` option map:
ints, bools, strings, function values (redirect policies / proxy selectors)
and cookie-jar objects. -/
inductive OptVal where
  | vInt (n : Int)
  | vBool (b : Bool)
  | vStr (s : String)
  | vFunc
  | vJar
deriving DecidableEq

abbrev OptionMap := List (Int × OptVal)

abbrev HeaderMap := List (String × String)

def defaultOptions : OptionMap :=
  [(OPT_FOLLOWLOCATION, OptVal.vBool true),
   (OPT_MAXREDIRS, OptVal.vInt 10),
   (OPT_AUTOREFERER, OptVal.vBool true),
   (OPT_USERAGENT, OptVal.vStr USERAGENT),
   (OPT_COOKIEJAR, OptVal.vBool true)]

/-- `transportOptions`: options said (by the source comment) to affect the transport. -/
def transportOptions : List Int :=
  [OPT_CONNECTTIMEOUT, OPT_CONNECTTIMEOUT_MS, OPT_PROXYTYPE, OPT_TIMEOUT,
   OPT_TIMEOUT_MS, OPT_INTERFACE, OPT_PROXY, OPT_PROXY_FUNC]

/-- `jarOptions`: options said to affect the cookie jar. -/
def jarOptions : List Int := [OPT_COOKIEJAR]

/-- `mergeOptions` (httpclient.go line 573): later maps win. The Go variadic
parameter becomes a list of maps. -/
def mergeOptions (options : List OptionMap) : OptionMap :=
  options.foldl (fun rst m => insertAll rst m) []

/-- `mergeHeaders` (httpclient.go line 585): later maps win. -/
def mergeHeaders (headers : List HeaderMap) : HeaderMap :=
  headers.foldl (fun rst m => insertAll rst m) []

/-! ## Transport builder (`prepareTransport`, httpclient.go lines 128-235) -/

inductive ProxyCfg where
  | noProxy
  | fromFunc
  | proxyUrl (u : String)
deriving DecidableEq

structure Transport where
  connectTimeoutMS : Int
  timeoutMS : Int
  proxy : ProxyCfg
deriving DecidableEq

/-- Lines 131-143: resolve the connect timeout in milliseconds.
`OPT_CONNECTTIMEOUT_MS` is preferred; otherwise `OPT_CONNECTTIMEOUT` (seconds)
is multiplied by 1000; otherwise 0. A non-int value is a type error. -/
def connectTimeoutMSOf (options : OptionMap) : Except String Int :=
  match mlookup options OPT_CONNECTTIMEOUT_MS with
  | some (OptVal.vInt n) => Except.ok n
  | some _ => Except.error "OPT_CONNECTTIMEOUT_MS must be int"
  | none =>
    match mlookup options OPT_CONNECTTIMEOUT with
    | some (OptVal.vInt n) => Except.ok (n * 1000)
    | some _ => Except.error "OPT_CONNECTTIMEOUT must be int"
    | none => Except.ok 0

/-- Lines 145-157: resolve the overall timeout in milliseconds, same scheme. -/
def timeoutMSOf (options : OptionMap) : Except String Int :=
  match mlookup options OPT_TIMEOUT_MS with
  | some (OptVal.vInt n) => Except.ok n
  | some _ => Except.error "OPT_TIMEOUT_MS must be int"
  | none =>
    match mlookup options OPT_TIMEOUT with
    | some (OptVal.vInt n) => Except.ok (n * 1000)
    | some _ => Except.error "OPT_TIMEOUT must be int"
    | none => Except.ok 0

/-- Lines 159-162: `if timeoutMS > 0 && (connectTimeoutMS > timeoutMS || connectTimeoutMS == 0)
then connectTimeoutMS = timeoutMS`. -/
def clampConnectTimeout (connectTimeoutMS timeoutMS : Int) : Int :=
  if 0 < timeoutMS ∧ (timeoutMS < connectTimeoutMS ∨ connectTimeoutMS = 0) then timeoutMS
  else connectTimeoutMS

/-- Lines 220-231: the static-proxy branch; `url.Parse("http://" + proxy)` is
external stdlib and modelled as succeeding. -/
def prepareStaticProxy (options : OptionMap) : Except String ProxyCfg :=
  match mlookup options OPT_PROXY with
  | some (OptVal.vStr p) => Except.ok (ProxyCfg.proxyUrl ("http://" ++ p))
  | some _ => Except.error "OPT_PROXY must be string"
  | none => Except.ok ProxyCfg.noProxy

/-- Lines 186-232: proxy resolution. A proxy-selector function wins; otherwise
`OPT_PROXYTYPE` (if present) must be an int equal to `PROXY_HTTP`, then a static
proxy address may be used. -/
def prepareProxy (options : OptionMap) : Except String ProxyCfg :=
  match mlookup options OPT_PROXY_FUNC with
  | some OptVal.vFunc => Except.ok ProxyCfg.fromFunc
  | some _ => Except.error "OPT_PROXY_FUNC is not a desired function"
  | none =>
    match mlookup options OPT_PROXYTYPE with
    | some (OptVal.vInt n) =>
      if n = PROXY_HTTP then prepareStaticProxy options
      else Except.error "OPT_PROXYTYPE must be int, and only PROXY_HTTP is currently supported"
    | some _ => Except.error "OPT_PROXYTYPE must be int, and only PROXY_HTTP is currently supported"
    | none => prepareStaticProxy options

/-- `prepareTransport` (line 128): timeouts resolved, connect timeout clamped,
proxy configured. -/
def prepareTransport (options : OptionMap) : Except String Transport := do
  let connectTimeoutMS ← connectTimeoutMSOf options
  let timeoutMS ← timeoutMSOf options
  let connectTimeoutMS := clampConnectTimeout connectTimeoutMS timeoutMS
  let proxy ← prepareProxy options
  Except.ok { connectTimeoutMS := connectTimeoutMS, timeoutMS := timeoutMS, proxy := proxy }

/-! ## Redirect policy builder (`prepareRedirect`, lines 237-274) -/

inductive RedirectPolicy where
  | custom
  | synthesized (followlocation : Bool) (maxredirs : Int)
deriving DecidableEq

/-- The closure synthesized at lines 259-270, applied to a redirect candidate
whose `via` chain has the given length: error if redirects are off or the chain
is already at the limit. -/
def synthesizedPolicy (followlocation : Bool) (maxredirs : Int) (viaLen : Nat) :
    Except String Unit :=
  if followlocation = false ∨ maxredirs ≤ 0 then Except.error "redirect not allowed"
  else if maxredirs ≤ (viaLen : Int) then Except.error "stopped after redirects"
  else Except.ok ()

/-- `prepareRedirect` (line 237): a custom policy option wins (wrong type is an
error); otherwise `OPT_FOLLOWLOCATION` (default false here) and `OPT_MAXREDIRS`
(default 0 here) parameterize the synthesized policy. -/
def prepareRedirect (options : OptionMap) : Except String RedirectPolicy :=
  match mlookup options OPT_REDIRECT_POLICY with
  | some OptVal.vFunc => Except.ok RedirectPolicy.custom
  | some _ => Except.error "OPT_REDIRECT_POLICY is not a desired function"
  | none =>
    match (match mlookup options OPT_FOLLOWLOCATION with
           | some (OptVal.vBool b) => Except.ok b
           | some _ => Except.error "OPT_FOLLOWLOCATION must be bool"
           | none => Except.ok false : Except String Bool) with
    | Except.error e => Except.error e
    | Except.ok followlocation =>
      match (match mlookup options OPT_MAXREDIRS with
             | some (OptVal.vInt n) => Except.ok n
             | some _ => Except.error "OPT_MAXREDIRS must be int"
             | none => Except.ok 0 : Except String Int) with
      | Except.error e => Except.error e
      | Except.ok maxredirs => Except.ok (RedirectPolicy.synthesized followlocation maxredirs)

/-! ## Cookie jar builder (`prepareJar`, lines 276-298) -/

inductive Jar where
  | defaultJar
  | customJar
deriving DecidableEq

/-- `prepareJar`: bool true builds the default jar, bool false yields no jar,
a jar object is used as-is, anything else is invalid; absent means no jar. -/
def prepareJar (options : OptionMap) : Except String (Option Jar) :=
  match mlookup options OPT_COOKIEJAR with
  | some (OptVal.vBool b) => if b then Except.ok (some Jar.defaultJar) else Except.ok none
  | some OptVal.vJar => Except.ok (some Jar.customJar)
  | some _ => Except.error "invalid cookiejar"
  | none => Except.ok none

/-! ## Query-string encoding (Go `net/url` Values.Encode / QueryEscape,
used by `paramsToString`, httpclient.go line 516) -/

/-- UTF-8 bytes of a character (Go strings are byte sequences). -/
def utf8Bytes (c : Char) : List Nat :=
  let n := c.toNat
  if n < 128 then [n]
  else if n < 2048 then [192 + n / 64, 128 + n % 64]
  else if n < 65536 then [224 + n / 4096, 128 + (n / 64) % 64, 128 + n % 64]
  else [240 + n / 262144, 128 + (n / 4096) % 64, 128 + (n / 64) % 64, 128 + n % 64]

def strBytes (s : String) : List Nat :=
  s.data.foldr (fun c acc => utf8Bytes c ++ acc) []

def upperHexDigit (n : Nat) : Char :=
  if n < 10 then Char.ofNat (48 + n) else Char.ofNat (55 + n)

/-- One byte under Go `url.QueryEscape`: alphanumerics and `-._~` are kept,
space becomes `+`, anything else becomes `%XX` with uppercase hex. -/
def escapeQueryByte (b : Nat) : List Char :=
  if (65 ≤ b ∧ b ≤ 90) ∨ (97 ≤ b ∧ b ≤ 122) ∨ (48 ≤ b ∧ b ≤ 57) ∨
     b = 45 ∨ b = 46 ∨ b = 95 ∨ b = 126 then [Char.ofNat b]
  else if b = 32 then ['+']
  else ['%', upperHexDigit (b / 16), upperHexDigit (b % 16)]

def queryEscape (s : String) : String :=
  String.mk ((strBytes s).foldr (fun b acc => escapeQueryByte b ++ acc) [])

/-- Go `url.Values.Set`: replace the binding for `k` (or append a fresh one). -/
def valuesSet (vals : List (String × String)) (k v : String) : List (String × String) :=
  if vals.any (fun p => p.1 == k) then vals.map (fun p => if p.1 == k then (k, v) else p)
  else vals ++ [(k, v)]

def insertSorted (x : String × String) : List (String × String) → List (String × String)
  | [] => [x]
  | y :: ys => if x.1 ≤ y.1 then x :: y :: ys else y :: insertSorted x ys

/-- Go `url.Values.Encode` sorts keys before encoding. -/
def sortByKey (l : List (String × String)) : List (String × String) :=
  l.foldr insertSorted []

/-- `paramsToString` (line 516): load params into a `url.Values` and `Encode`
(sorted keys, `k=v` pairs joined with `&`, both sides query-escaped). -/
def paramsToString (params : List (String × String)) : String :=
  let values := params.foldl (fun acc kv => valuesSet acc kv.1 kv.2) []
  String.intercalate "&" ((sortByKey values).map
    (fun p => queryEscape p.1 ++ "=" ++ queryEscape p.2))

/-! ## Go string helpers used by `addParams` -/

def isPrefixList : List Char → List Char → Bool
  | [], _ => true
  | _ :: _, [] => false
  | x :: xs, y :: ys => (x == y) && isPrefixList xs ys

/-- Go `strings.HasSuffix`. -/
def goHasSuffix (s suffix : String) : Bool :=
  isPrefixList suffix.data.reverse s.data.reverse

/-- Go `strings.Contains(s, "?")` for the single-character pattern used here. -/
def goContainsChar (s : String) (c : Char) : Bool :=
  s.data.any (fun x => x == c)

/-- `addParams` (lines 525-541): append encoded params to a URL, adding `?`
when the URL has none and `&` when the URL already ends with query content. -/
def addParams (url_ : String) (params : List (String × String)) : String :=
  if params.length = 0 then url_
  else
    let url1 := if goContainsChar url_ '?' = false then url_ ++ "?" else url_
    if goHasSuffix url1 "?" || goHasSuffix url1 "&" then url1 ++ paramsToString params
    else url1 ++ "&" ++ paramsToString params

/-- `checkParamFile` (lines 597-605): does some key start with `@`? Indexing
`k[0]` panics (modelled as `none`) on an empty key. -/
def checkParamFile : List (String × String) → Option Bool
  | [] => some false
  | (k, _) :: rest =>
    match k.data.head? with
    | none => none
    | some c => if c = '@' then some true else checkParamFile rest

/-! ## Client session (`HttpClient`, lines 300-459) -/

/-- `hasOption` (lines 607-615), verbatim: returns true as soon as some element
of the list differs from `opt`. -/
def hasOption (opt : Int) (options : List Int) : Bool :=
  options.any (fun v => opt != v)

/-- The `HttpClient` struct (lines 311-322). `Option` wraps model Go nil maps /
nil pointers; cookies are modelled by their names; the mutex is modelled by
whether it was allocated and whether it is held. -/
structure HttpClientState where
  Options : OptionMap
  Headers : Option HeaderMap
  oneTimeOptions : Option OptionMap
  oneTimeHeaders : Option HeaderMap
  oneTimeCookies : List String
  transport : Option Transport
  jar : Option Jar
  reuseTransport : Bool
  reuseJar : Bool
  lockInitialized : Bool
  locked : Bool
deriving DecidableEq

/-- `NewHttpClient` (line 300). -/
def NewHttpClient (options : OptionMap) : HttpClientState :=
  { Options := options, Headers := some [], oneTimeOptions := none, oneTimeHeaders := none,
    oneTimeCookies := [], transport := none, jar := none,
    reuseTransport := true, reuseJar := true, lockInitialized := false, locked := false }

/-- `Begin` (line 324): allocate the lock if needed and take it. -/
def Begin (s : HttpClientState) : HttpClientState :=
  { s with lockInitialized := true, locked := true }

/-- `reset` (lines 333-343): clear one-time state, restore the reuse flags,
unlock if the lock exists. -/
def reset (s : HttpClientState) : HttpClientState :=
  { s with oneTimeOptions := none, oneTimeHeaders := none, oneTimeCookies := [],
           reuseTransport := true, reuseJar := true,
           locked := if s.lockInitialized then false else s.locked }

/-- `WithOption` (lines 346-363): stage a one-time option and drop the reuse
flags per `hasOption` against the transport/jar option sets. -/
def WithOption (s : HttpClientState) (k : Int) (v : OptVal) : HttpClientState :=
  let s := { s with oneTimeOptions := some (mset (s.oneTimeOptions.getD []) k v) }
  let s := if hasOption k transportOptions = false then { s with reuseTransport := false } else s
  if hasOption k jarOptions = false then { s with reuseJar := false } else s

/-- `WithHeader` (lines 373-380). -/
def WithHeader (s : HttpClientState) (k v : String) : HttpClientState :=
  { s with oneTimeHeaders := some (mset (s.oneTimeHeaders.getD []) k v) }

/-- `WithCookie` (lines 390-394). -/
def WithCookie (s : HttpClientState) (cookie : String) : HttpClientState :=
  { s with oneTimeCookies := s.oneTimeCookies ++ [cookie] }

/-- The outbound request assembled by `Do`. -/
structure Request where
  method : String
  url : String
  headers : HeaderMap
  cookies : List String
  body : Option String
deriving DecidableEq

/-- `prepareRequest` (lines 100-126). `http.NewRequest` is external stdlib; its
method/URL validation outcome is the `parseOk` argument. `Referer` and
`User-Agent` come from options, then the explicit headers override. -/
def prepareRequest (method url_ : String) (headers : HeaderMap) (body : Option String)
    (options : OptionMap) (parseOk : Bool) : Except String Request :=
  if parseOk = false then Except.error "invalid method or URL"
  else
    let reqHeaders : HeaderMap := []
    let reqHeaders := match mlookup options OPT_REFERER with
      | some (OptVal.vStr s) => mset reqHeaders "Referer" s
      | _ => reqHeaders
    let reqHeaders := match mlookup options OPT_USERAGENT with
      | some (OptVal.vStr s) => mset reqHeaders "User-Agent" s
      | _ => reqHeaders
    let reqHeaders := insertAll reqHeaders headers
    Except.ok { method := method, url := url_, headers := reqHeaders, cookies := [], body := body }

/-- Line 398 of `Do`: `headers = mergeHeaders(this.oneTimeHeaders, headers)`. -/
def doHeaders (oneTimeHeaders headers : Option HeaderMap) : HeaderMap :=
  mergeHeaders [oneTimeHeaders.getD [], headers.getD []]

/-- The `http.Client{Transport, CheckRedirect, Jar}` built at lines 443-447
together with the request handed to it: what the external engine executes. -/
structure ExecutedCall where
  transport : Transport
  jar : Option Jar
  redirect : RedirectPolicy
  request : Request
deriving DecidableEq

/-- Lines 407-415: build a fresh transport and cache it when `reuseTransport`
still holds. -/
def buildTransport (s : HttpClientState) (options : OptionMap) :
    Except String (HttpClientState × Transport) :=
  match prepareTransport options with
  | Except.error e => Except.error e
  | Except.ok transport =>
    if s.reuseTransport then Except.ok ({ s with transport := some transport }, transport)
    else Except.ok (s, transport)

/-- Lines 406-418: `if this.transport == nil || !this.reuseTransport` rebuild,
else reuse the cached transport. -/
def acquireTransport (s : HttpClientState) (options : OptionMap) :
    Except String (HttpClientState × Transport) :=
  match s.transport with
  | none => buildTransport s options
  | some cached => if s.reuseTransport then Except.ok (s, cached) else buildTransport s options

/-- Lines 422-430: build a fresh jar and cache it when `reuseJar` still holds. -/
def buildJar (s : HttpClientState) (options : OptionMap) :
    Except String (HttpClientState × Option Jar) :=
  match prepareJar options with
  | Except.error e => Except.error e
  | Except.ok jar =>
    if s.reuseJar then Except.ok ({ s with jar := jar }, jar)
    else Except.ok (s, jar)

/-- Lines 421-433: `if this.jar == nil || !this.reuseJar` rebuild, else reuse. -/
def acquireJar (s : HttpClientState) (options : OptionMap) :
    Except String (HttpClientState × Option Jar) :=
  match s.jar with
  | none => buildJar s options
  | some cached => if s.reuseJar then Except.ok (s, some cached) else buildJar s options

/-- `Do` (lines 396-459). Returns the post-call session state and either the
executed call (success; actual wire execution is the external engine) or the
error. Mirrors the branch structure: rebuild-or-reuse transport, then jar,
then `reset`, then redirect policy, then request construction. -/
def Do (s : HttpClientState) (method url_ : String) (headers : Option HeaderMap)
    (body : Option String) (parseOk : Bool) : HttpClientState × Except String ExecutedCall :=
  let options := mergeOptions [defaultOptions, s.Options, s.oneTimeOptions.getD []]
  let headers := doHeaders s.oneTimeHeaders headers
  let cookies := s.oneTimeCookies
  match acquireTransport s options with
  | Except.error e => (reset s, Except.error e)
  | Except.ok (s1, transport) =>
    match acquireJar s1 options with
    | Except.error e => (reset s1, Except.error e)
    | Except.ok (s2, jar) =>
      let s3 := reset s2
      match prepareRedirect options with
      | Except.error e => (s3, Except.error e)
      | Except.ok redirect =>
        match prepareRequest method url_ headers body options parseOk with
        | Except.error e => (s3, Except.error e)
        | Except.ok req =>
          (s3, Except.ok { transport := transport, jar := jar, redirect := redirect,
                           request := { req with cookies := cookies } })

/-- `Get` (lines 462-466): append params to the URL, nil headers, nil body. -/
def Get (s : HttpClientState) (url_ : String) (params : List (String × String))
    (parseOk : Bool) : HttpClientState × Except String ExecutedCall :=
  Do s "GET" (addParams url_ params) none none parseOk

/-- The multipart body-construction loop of `PostMultipart` (lines 494-504):
file parts for `@`-keys (marker stripped), fields otherwise; `k[0]` on an empty
key panics (`none`). `addFormFile` is file-system access, modelled as
succeeding. -/
inductive MPart where
  | field (k v : String)
  | file (name path : String)
deriving DecidableEq

def multipartParts : List (String × String) → Option (List MPart)
  | [] => some []
  | (k, v) :: rest =>
    match k.data.head? with
    | none => none
    | some c =>
      if c = '@' then (multipartParts rest).map (fun ps => MPart.file (String.mk k.data.tail) v :: ps)
      else (multipartParts rest).map (fun ps => MPart.field k v :: ps)

/-- `PostMultipart` (lines 488-514). The multipart boundary is random and the
body bytes are elided; what matters for the claims is the routing, the panic
behaviour of the loop, and the fresh (non-persistent) header map. -/
def PostMultipart (s : HttpClientState) (url_ : String) (params : List (String × String))
    (parseOk : Bool) : Option (HttpClientState × Except String ExecutedCall) :=
  match multipartParts params with
  | none => none
  | some _parts =>
    let headers := mset ([] : HeaderMap) "Content-Type" "multipart/form-data; boundary"
    some (Do s "POST" url_ (some headers) (some "multipart body") parseOk)

/-- `Post` (lines 472-485). When no `@` key is present: `headers := this.Headers`
aliases the persistent map when it is non-nil, so the `Content-Type` write
lands in the session's persistent headers. -/
def Post (s : HttpClientState) (url_ : String) (params : List (String × String))
    (parseOk : Bool) : Option (HttpClientState × Except String ExecutedCall) :=
  match checkParamFile params with
  | none => none
  | some true => PostMultipart s url_ params parseOk
  | some false =>
    match s.Headers with
    | some h =>
      let h := mset h "Content-Type" "application/x-www-form-urlencoded"
      let s := { s with Headers := some h }
      some (Do s "POST" url_ (some h) (some (paramsToString params)) parseOk)
    | none =>
      let h := mset ([] : HeaderMap) "Content-Type" "application/x-www-form-urlencoded"
      some (Do s "POST" url_ (some h) (some (paramsToString params)) parseOk)

/-! ## Map lemmas -/

theorem mlookup_append {K V : Type} [DecidableEq K] (a b : List (K × V)) (q : K) :
    mlookup (a ++ b) q =
      match mlookup b q with
      | some w => some w
      | none => mlookup a q := by
  induction a with
  | nil =>
    simp only [List.nil_append, mlookup]
    cases mlookup b q <;> rfl
  | cons hd tl ih =>
    obtain ⟨k, v⟩ := hd
    show (match mlookup (tl ++ b) q with
          | some w => some w
          | none => if k = q then some v else none) = _
    rw [ih]
    simp only [mlookup]
    cases mlookup b q <;> cases mlookup tl q <;> rfl

theorem mlookup_mset {K V : Type} [DecidableEq K] (m : List (K × V)) (k q : K) (v : V) :
    mlookup (mset m k v) q = if k = q then some v else mlookup m q := by
  rw [mset, mlookup_append]
  simp only [mlookup]
  by_cases h : k = q <;> simp [h]

theorem mlookup_insertAll {K V : Type} [DecidableEq K] (m acc : List (K × V)) (q : K) :
    mlookup (insertAll acc m) q =
      match mlookup m q with
      | some w => some w
      | none => mlookup acc q := by
  induction m generalizing acc with
  | nil => simp [insertAll, mlookup]
  | cons hd tl ih =>
    obtain ⟨k, v⟩ := hd
    show mlookup (insertAll (mset acc k v) tl) q = _
    rw [ih]
    simp only [mlookup, mlookup_mset]
    by_cases h : k = q <;> cases htl : mlookup tl q <;> simp [h]

theorem mlookup_nil {K V : Type} [DecidableEq K] (q : K) :
    mlookup ([] : List (K × V)) q = none := rfl

/-- C2: the three-layer merge used by `Do` resolves each key to the one-time
value if present, else the persistent value, else the default value; a key
absent from all three layers is absent from the result. -/
theorem mergeOptions_resolution (D P O : OptionMap) (k : Int) :
    mlookup (mergeOptions [D, P, O]) k =
      match mlookup O k with
      | some v => some v
      | none =>
        match mlookup P k with
        | some v => some v
        | none => mlookup D k := by
  show mlookup (insertAll (insertAll (insertAll [] D) P) O) k = _
  rw [mlookup_insertAll, mlookup_insertAll, mlookup_insertAll]
  cases mlookup O k <;> cases mlookup P k <;> cases mlookup D k <;> rfl

/-! ## Helper lemmas -/

theorem hasOption_transportOptions_true (k : Int) : hasOption k transportOptions = true := by
  simp only [hasOption, transportOptions, OPT_CONNECTTIMEOUT, OPT_CONNECTTIMEOUT_MS,
    OPT_PROXYTYPE, OPT_TIMEOUT, OPT_TIMEOUT_MS, OPT_INTERFACE, OPT_PROXY, OPT_PROXY_FUNC,
    List.any_cons, List.any_nil, Bool.or_eq_true, bne_iff_ne, ne_eq, Bool.or_false]
  omega

theorem withOption_preserves_transport_reuse (s : HttpClientState) (k : Int) (v : OptVal) :
    (WithOption s k v).reuseTransport = s.reuseTransport
    ∧ (WithOption s k v).transport = s.transport := by
  simp only [WithOption, hasOption_transportOptions_true]
  by_cases hj : hasOption k jarOptions = false <;> simp [hj]

/-- C1: the claim says a transport-affecting key always forces a rebuild.
The code's `hasOption` returns true for every key against `transportOptions`
(the list has two distinct elements, so some element differs from any `k`),
so `WithOption` never clears `reuseTransport`: a session with a cached
transport reuses it even after `WithOption(OPT_PROXY, ...)`, and the executed
call goes out with the stale cached transport (no proxy). The non-transport
half of the claim (no forced rebuild) does hold, as the same equations show. -/
theorem withOption_transport_key_never_forces_rebuild :
    (∀ k : Int, hasOption k transportOptions = true)
    ∧ (∀ (s : HttpClientState) (k : Int) (v : OptVal),
        (WithOption s k v).reuseTransport = s.reuseTransport)
    ∧ (WithOption
        { NewHttpClient [] with
            transport := some { connectTimeoutMS := 0, timeoutMS := 0, proxy := ProxyCfg.noProxy } }
        OPT_PROXY (OptVal.vStr "127.0.0.1:8080")).reuseTransport = true
    ∧ (∃ call : ExecutedCall,
        (Do (WithOption
              { NewHttpClient [] with
                  transport := some { connectTimeoutMS := 0, timeoutMS := 0, proxy := ProxyCfg.noProxy } }
              OPT_PROXY (OptVal.vStr "127.0.0.1:8080"))
            "GET" "http://example.com/" none none true).2 = Except.ok call
        ∧ call.transport = { connectTimeoutMS := 0, timeoutMS := 0, proxy := ProxyCfg.noProxy }
        ∧ call.transport.proxy = ProxyCfg.noProxy) := by
  refine ⟨hasOption_transportOptions_true,
          fun s k v => (withOption_preserves_transport_reuse s k v).1, ?_, ?_⟩
  · rfl
  · exact ⟨_, rfl, rfl, rfl⟩

/-- C4: the transport builder clamps the effective connect timeout to the
overall timeout whenever the overall timeout is positive and the connect
timeout is zero or larger; millisecond options are preferred over the
second-precision ones, which are multiplied by 1000; and concretely
connect=10000ms with overall=2000ms yields 2000ms. -/
theorem connect_timeout_clamped_to_overall :
    (∀ (options : OptionMap) (c t : Int),
        connectTimeoutMSOf options = Except.ok c →
        timeoutMSOf options = Except.ok t →
        0 < t → (c = 0 ∨ t < c) →
        ∀ tr : Transport, prepareTransport options = Except.ok tr → tr.connectTimeoutMS = t)
    ∧ prepareTransport [(OPT_CONNECTTIMEOUT_MS, OptVal.vInt 10000), (OPT_TIMEOUT_MS, OptVal.vInt 2000)]
        = Except.ok { connectTimeoutMS := 2000, timeoutMS := 2000, proxy := ProxyCfg.noProxy }
    ∧ (∀ (options : OptionMap) (n : Int),
        mlookup options OPT_CONNECTTIMEOUT_MS = some (OptVal.vInt n) →
        connectTimeoutMSOf options = Except.ok n)
    ∧ (∀ (options : OptionMap) (n : Int),
        mlookup options OPT_CONNECTTIMEOUT_MS = none →
        mlookup options OPT_CONNECTTIMEOUT = some (OptVal.vInt n) →
        connectTimeoutMSOf options = Except.ok (n * 1000))
    ∧ (∀ (options : OptionMap) (n : Int),
        mlookup options OPT_TIMEOUT_MS = some (OptVal.vInt n) →
        timeoutMSOf options = Except.ok n)
    ∧ (∀ (options : OptionMap) (n : Int),
        mlookup options OPT_TIMEOUT_MS = none →
        mlookup options OPT_TIMEOUT = some (OptVal.vInt n) →
        timeoutMSOf options = Except.ok (n * 1000)) := by
  refine ⟨?_, rfl, ?_, ?_, ?_, ?_⟩
  · intro options c t hc ht hpos hco tr htr
    have hclamp : clampConnectTimeout c t = t := by
      rw [clampConnectTimeout, if_pos]
      exact ⟨hpos, hco.elim (fun h => Or.inr h) (fun h => Or.inl h)⟩
    simp only [prepareTransport, hc, ht, bind, Except.bind, hclamp] at htr
    cases hp : prepareProxy options with
    | error e => rw [hp] at htr; cases htr
    | ok p => rw [hp] at htr; cases htr; rfl
  · intro options n h; simp [connectTimeoutMSOf, h]
  · intro options n h1 h2; simp [connectTimeoutMSOf, h1, h2]
  · intro options n h; simp [timeoutMSOf, h]
  · intro options n h1 h2; simp [timeoutMSOf, h1, h2]

/-- Witness for C4 at connect=10000ms, overall=2000ms. -/
theorem connect_timeout_clamped_to_overall_witness :
    ({ connectTimeoutMS := 2000, timeoutMS := 2000, proxy := ProxyCfg.noProxy } : Transport).connectTimeoutMS
      = 2000 :=
  connect_timeout_clamped_to_overall.1
    [(OPT_CONNECTTIMEOUT_MS, OptVal.vInt 10000), (OPT_TIMEOUT_MS, OptVal.vInt 2000)]
    10000 2000 rfl rfl (by decide) (Or.inr (by decide)) _
    connect_timeout_clamped_to_overall.2.1

/-- C5: with no custom redirect-policy option, `prepareRedirect` only ever
produces a synthesized policy; that policy refuses every redirect when
follow-location is false or max-redirects is nonpositive, otherwise it refuses
exactly the chains whose length has reached max-redirects; with follow=true
and max=3 a chain of length 3 is refused and one of length 2 is allowed. -/
theorem redirect_policy_synthesis (follow : Bool) (maxr : Int) :
    (∀ (options : OptionMap) (r : RedirectPolicy),
        mlookup options OPT_REDIRECT_POLICY = none →
        prepareRedirect options = Except.ok r →
        ∃ f m, r = RedirectPolicy.synthesized f m)
    ∧ ((follow = false ∨ maxr ≤ 0) →
        ∀ viaLen : Nat, ∃ e, synthesizedPolicy follow maxr viaLen = Except.error e)
    ∧ (follow = true → 0 < maxr →
        ∀ viaLen : Nat,
          (synthesizedPolicy follow maxr viaLen = Except.ok () ↔ (viaLen : Int) < maxr))
    ∧ (∃ e, synthesizedPolicy true 3 3 = Except.error e)
    ∧ synthesizedPolicy true 3 2 = Except.ok () := by
  refine ⟨?_, ?_, ?_, ⟨"stopped after redirects", by decide⟩, by decide⟩
  · intro options r hnone hr
    simp only [prepareRedirect, hnone] at hr
    cases hf : mlookup options OPT_FOLLOWLOCATION with
    | none =>
      rw [hf] at hr
      cases hm : mlookup options OPT_MAXREDIRS with
      | none => rw [hm] at hr; cases hr; exact ⟨_, _, rfl⟩
      | some v =>
        rw [hm] at hr
        cases v with
        | vInt n => cases hr; exact ⟨_, _, rfl⟩
        | vBool b => cases hr
        | vStr s => cases hr
        | vFunc => cases hr
        | vJar => cases hr
    | some v =>
      rw [hf] at hr
      cases v with
      | vBool b =>
        cases hm : mlookup options OPT_MAXREDIRS with
        | none => rw [hm] at hr; cases hr; exact ⟨_, _, rfl⟩
        | some w =>
          rw [hm] at hr
          cases w with
          | vInt n => cases hr; exact ⟨_, _, rfl⟩
          | vBool b2 => cases hr
          | vStr s => cases hr
          | vFunc => cases hr
          | vJar => cases hr
      | vInt n => cases hr
      | vStr s => cases hr
      | vFunc => cases hr
      | vJar => cases hr
  · intro h viaLen
    refine ⟨"redirect not allowed", ?_⟩
    rw [synthesizedPolicy, if_pos h]
  · intro hf hm viaLen
    rw [synthesizedPolicy, if_neg]
    · constructor
      · intro h
        by_contra hlt
        rw [if_pos (by omega)] at h
        cases h
      · intro hlt
        rw [if_neg (by omega)]
    · rintro (h | h)
      · rw [hf] at h; cases h
      · omega

/-- Witness for C5 at follow=true, max=3, chains of length 3 and 2. -/
theorem redirect_policy_synthesis_witness :
    (synthesizedPolicy true 3 2 = Except.ok ()) ∧ ¬((3 : Nat) : Int) < 3 ∧
      ∃ e, synthesizedPolicy true 3 3 = Except.error e :=
  ⟨(redirect_policy_synthesis true 3).2.2.1 rfl (by decide) 2 |>.mpr (by decide),
   by decide,
   (redirect_policy_synthesis true 3).2.2.2.1⟩

/-- C3 counterexample: a session with persistent header `X-Token = persistent`
and staged one-time header `X-Token = one-time`; the outbound request built by
`Post` (which routes the persistent headers into `Do`'s headers argument)
carries the persistent value, not the one-time value, because line 398 merges
with the one-time map first (`mergeHeaders(this.oneTimeHeaders, headers)`). -/
theorem do_header_merge_one_time_loses :
    mlookup (doHeaders (some [("X-Token", "one-time")]) (some [("X-Token", "persistent")]))
        "X-Token" = some "persistent"
    ∧ (∃ (st : HttpClientState) (call : ExecutedCall),
        Post { NewHttpClient [] with
                 Headers := some [("X-Token", "persistent")]
                 oneTimeHeaders := some [("X-Token", "one-time")] }
            "http://example.com/" [("a", "b")] true
          = some (st, Except.ok call)
        ∧ mlookup call.request.headers "X-Token" = some "persistent"
        ∧ ¬ mlookup call.request.headers "X-Token" = some "one-time") := by
  refine ⟨by decide, ⟨_, _, rfl, ?_, ?_⟩⟩ <;> decide

/-- C3 amended: the header map `Do` hands to request construction is the merge
of the staged one-time headers with the caller-passed headers argument (the
channel through which `Post` passes the session's persistent headers), and on
a key collision the caller-passed / persistent value wins. -/
theorem do_headers_per_call_value_wins (oneTime arg : Option HeaderMap) (k : String) :
    mlookup (doHeaders oneTime arg) k =
      match mlookup (arg.getD []) k with
      | some v => some v
      | none => mlookup (oneTime.getD []) k := by
  show mlookup (insertAll (insertAll [] (oneTime.getD [])) (arg.getD [])) k = _
  rw [mlookup_insertAll, mlookup_insertAll]
  cases mlookup (arg.getD []) k <;> cases mlookup (oneTime.getD []) k <;> rfl

/-! ## State-preservation lemmas for `Do` -/

theorem buildTransport_state (s : HttpClientState) (options : OptionMap)
    (s1 : HttpClientState) (tr : Transport)
    (h : buildTransport s options = Except.ok (s1, tr)) :
    s1 = s ∨ s1 = { s with transport := some tr } := by
  unfold buildTransport at h
  cases hp : prepareTransport options with
  | error e => rw [hp] at h; dsimp only at h; exact Except.noConfusion h
  | ok t =>
    rw [hp] at h
    dsimp only at h
    by_cases hr : s.reuseTransport = true
    · rw [if_pos hr] at h
      simp only [Except.ok.injEq, Prod.mk.injEq] at h
      obtain ⟨h1, h2⟩ := h
      subst h2
      exact Or.inr h1.symm
    · rw [if_neg hr] at h
      simp only [Except.ok.injEq, Prod.mk.injEq] at h
      exact Or.inl h.1.symm

theorem acquireTransport_state (s : HttpClientState) (options : OptionMap)
    (s1 : HttpClientState) (tr : Transport)
    (h : acquireTransport s options = Except.ok (s1, tr)) :
    s1 = s ∨ s1 = { s with transport := some tr } := by
  unfold acquireTransport at h
  cases hc : s.transport with
  | none => rw [hc] at h; dsimp only at h; exact buildTransport_state s options s1 tr h
  | some cached =>
    rw [hc] at h
    dsimp only at h
    by_cases hr : s.reuseTransport = true
    · rw [if_pos hr] at h
      simp only [Except.ok.injEq, Prod.mk.injEq] at h
      exact Or.inl h.1.symm
    · rw [if_neg hr] at h
      exact buildTransport_state s options s1 tr h

theorem buildJar_state (s : HttpClientState) (options : OptionMap)
    (s1 : HttpClientState) (j : Option Jar)
    (h : buildJar s options = Except.ok (s1, j)) :
    s1 = s ∨ s1 = { s with jar := j } := by
  unfold buildJar at h
  cases hp : prepareJar options with
  | error e => rw [hp] at h; dsimp only at h; exact Except.noConfusion h
  | ok jv =>
    rw [hp] at h
    dsimp only at h
    by_cases hr : s.reuseJar = true
    · rw [if_pos hr] at h
      simp only [Except.ok.injEq, Prod.mk.injEq] at h
      obtain ⟨h1, h2⟩ := h
      subst h2
      exact Or.inr h1.symm
    · rw [if_neg hr] at h
      simp only [Except.ok.injEq, Prod.mk.injEq] at h
      exact Or.inl h.1.symm

theorem acquireJar_state (s : HttpClientState) (options : OptionMap)
    (s1 : HttpClientState) (j : Option Jar)
    (h : acquireJar s options = Except.ok (s1, j)) :
    s1 = s ∨ s1 = { s with jar := j } := by
  unfold acquireJar at h
  cases hc : s.jar with
  | none => rw [hc] at h; dsimp only at h; exact buildJar_state s options s1 j h
  | some cached =>
    rw [hc] at h
    dsimp only at h
    by_cases hr : s.reuseJar = true
    · rw [if_pos hr] at h
      simp only [Except.ok.injEq, Prod.mk.injEq] at h
      exact Or.inl h.1.symm
    · rw [if_neg hr] at h
      exact buildJar_state s options s1 j h

/-- The post-call state of `Do` is always `reset` of a state that differs from
the input state only in the cached transport/jar. -/
theorem do_fst_eq_reset (s : HttpClientState) (method url_ : String)
    (headers : Option HeaderMap) (body : Option String) (parseOk : Bool) :
    ∃ t : HttpClientState, (Do s method url_ headers body parseOk).1 = reset t
      ∧ t.lockInitialized = s.lockInitialized ∧ t.Headers = s.Headers := by
  simp only [Do]
  split
  · exact ⟨s, rfl, rfl, rfl⟩
  next s1 tr ht =>
    have h1 : s1.lockInitialized = s.lockInitialized ∧ s1.Headers = s.Headers := by
      obtain (h | h) := acquireTransport_state _ _ _ _ ht <;> subst h <;> exact ⟨rfl, rfl⟩
    split
    · exact ⟨s1, rfl, h1.1, h1.2⟩
    next s2 j hj =>
      have h2 : s2.lockInitialized = s.lockInitialized ∧ s2.Headers = s.Headers := by
        obtain (h | h) := acquireJar_state _ _ _ _ hj <;> subst h
        · exact h1
        · exact ⟨h1.1, h1.2⟩
      split
      · exact ⟨s2, rfl, h2.1, h2.2⟩
      · split
        · exact ⟨s2, rfl, h2.1, h2.2⟩
        · exact ⟨s2, rfl, h2.1, h2.2⟩

/-- C8: on every execution path of `Do` — transport build failure, jar build
failure, redirect-policy failure, request construction failure, or success —
the returned session has its one-time options, headers and cookies cleared,
both reuse flags restored to true, and the lock (when it exists) released. -/
theorem do_releases_lock_and_clears_state (s : HttpClientState) (method url_ : String)
    (headers : Option HeaderMap) (body : Option String) (parseOk : Bool)
    (hlock : s.lockInitialized = true) :
    ((Do s method url_ headers body parseOk).1.oneTimeOptions = none)
    ∧ ((Do s method url_ headers body parseOk).1.oneTimeHeaders = none)
    ∧ ((Do s method url_ headers body parseOk).1.oneTimeCookies = [])
    ∧ ((Do s method url_ headers body parseOk).1.reuseTransport = true)
    ∧ ((Do s method url_ headers body parseOk).1.reuseJar = true)
    ∧ ((Do s method url_ headers body parseOk).1.locked = false) := by
  obtain ⟨t, ht, hti, _⟩ := do_fst_eq_reset s method url_ headers body parseOk
  rw [ht]
  refine ⟨rfl, rfl, rfl, rfl, rfl, ?_⟩
  simp [reset, hti, hlock]

/-- Witness for C8: a locked fresh session stays usable after `Do`. -/
theorem do_releases_lock_and_clears_state_witness :
    ((Do (Begin (NewHttpClient [])) "GET" "http://example.com/" none none true).1.oneTimeOptions = none)
    ∧ ((Do (Begin (NewHttpClient [])) "GET" "http://example.com/" none none true).1.oneTimeHeaders = none)
    ∧ ((Do (Begin (NewHttpClient [])) "GET" "http://example.com/" none none true).1.oneTimeCookies = [])
    ∧ ((Do (Begin (NewHttpClient [])) "GET" "http://example.com/" none none true).1.reuseTransport = true)
    ∧ ((Do (Begin (NewHttpClient [])) "GET" "http://example.com/" none none true).1.reuseJar = true)
    ∧ ((Do (Begin (NewHttpClient [])) "GET" "http://example.com/" none none true).1.locked = false) :=
  do_releases_lock_and_clears_state (Begin (NewHttpClient [])) "GET" "http://example.com/"
    none none true rfl

/-- C9: `Post` on a session whose persistent `Headers` map is non-nil, with no
`@`-prefixed parameter key, writes `Content-Type = application/x-www-form-urlencoded`
into that persistent map (Go `headers := this.Headers` aliases it), so the
shared client's persistent header state is changed by the single call whenever
it did not already carry that entry. -/
theorem post_mutates_persistent_headers (s : HttpClientState) (url_ : String)
    (params : List (String × String)) (parseOk : Bool) (h : HeaderMap)
    (hH : s.Headers = some h) (hroute : checkParamFile params = some false) :
    ∃ (st : HttpClientState) (r : Except String ExecutedCall),
      Post s url_ params parseOk = some (st, r)
      ∧ st.Headers = some (mset h "Content-Type" "application/x-www-form-urlencoded")
      ∧ mlookup (mset h "Content-Type" "application/x-www-form-urlencoded") "Content-Type"
          = some "application/x-www-form-urlencoded"
      ∧ (mlookup h "Content-Type" = none → st.Headers ≠ some h) := by
  have hpost : Post s url_ params parseOk =
      some (Do { s with Headers := some (mset h "Content-Type" "application/x-www-form-urlencoded") }
        "POST" url_ (some (mset h "Content-Type" "application/x-www-form-urlencoded"))
        (some (paramsToString params)) parseOk) := by
    unfold Post
    rw [hroute, hH]
  obtain ⟨t, ht, _, hHead⟩ := do_fst_eq_reset
    { s with Headers := some (mset h "Content-Type" "application/x-www-form-urlencoded") }
    "POST" url_ (some (mset h "Content-Type" "application/x-www-form-urlencoded"))
    (some (paramsToString params)) parseOk
  have hstH : (Do { s with Headers := some (mset h "Content-Type" "application/x-www-form-urlencoded") }
      "POST" url_ (some (mset h "Content-Type" "application/x-www-form-urlencoded"))
      (some (paramsToString params)) parseOk).1.Headers
      = some (mset h "Content-Type" "application/x-www-form-urlencoded") := by
    rw [ht]
    exact hHead
  have hct : mlookup (mset h "Content-Type" "application/x-www-form-urlencoded") "Content-Type"
      = some "application/x-www-form-urlencoded" := by
    rw [mlookup_mset, if_pos rfl]
  refine ⟨(Do { s with Headers := some (mset h "Content-Type" "application/x-www-form-urlencoded") }
      "POST" url_ (some (mset h "Content-Type" "application/x-www-form-urlencoded"))
      (some (paramsToString params)) parseOk).1,
    (Do { s with Headers := some (mset h "Content-Type" "application/x-www-form-urlencoded") }
      "POST" url_ (some (mset h "Content-Type" "application/x-www-form-urlencoded"))
      (some (paramsToString params)) parseOk).2, ?_, hstH, hct, ?_⟩
  · rw [hpost]
  · intro hnone heq
    rw [hstH] at heq
    have : mset h "Content-Type" "application/x-www-form-urlencoded" = h :=
      Option.some_injective _ heq
    have hcontra := hct
    rw [this, hnone] at hcontra
    exact Option.noConfusion hcontra

/-- Witness for C9: a fresh client (empty persistent header map) gains the
`Content-Type` entry from one `Post` call. -/
theorem post_mutates_persistent_headers_witness :
    ∃ (st : HttpClientState) (r : Except String ExecutedCall),
      Post (NewHttpClient []) "http://example.com/" [("a", "b")] true = some (st, r)
      ∧ st.Headers = some (mset ([] : HeaderMap) "Content-Type" "application/x-www-form-urlencoded")
      ∧ mlookup (mset ([] : HeaderMap) "Content-Type" "application/x-www-form-urlencoded") "Content-Type"
          = some "application/x-www-form-urlencoded"
      ∧ (mlookup ([] : HeaderMap) "Content-Type" = none → st.Headers ≠ some ([] : HeaderMap)) :=
  post_mutates_persistent_headers (NewHttpClient []) "http://example.com/" [("a", "b")] true
    [] rfl rfl

/-! ## String lemmas for the URL helpers -/

theorem string_data_append (a b : String) : (a ++ b).data = a.data ++ b.data := by
  cases a
  cases b
  rfl

theorem string_eq_empty_of_data_nil (k : String) (h : k.data = []) : k = "" := by
  cases k with
  | mk d =>
    change d = [] at h
    subst h
    rfl

theorem goHasSuffix_append_qmark (s : String) : goHasSuffix (s ++ "?") "?" = true := by
  unfold goHasSuffix
  rw [string_data_append]
  show isPrefixList ['?'] ((s.data ++ ['?']).reverse) = true
  rw [List.reverse_append]
  simp [isPrefixList]

/-- C6: `addParams` (used by `Get`) inserts `?` when the URL has no query
string and `&` when it already has query content that does not end in `?`/`&`;
the two concrete GETs of the claim produce the claimed URLs, and an empty
parameter map leaves the URL unchanged. -/
theorem get_appends_encoded_params :
    addParams "http://x/y?a=1" [("b", "2")] = "http://x/y?a=1&b=2"
    ∧ addParams "http://x/y" [("b", "2")] = "http://x/y?b=2"
    ∧ (∀ url_ : String, addParams url_ [] = url_)
    ∧ (∀ (url_ : String) (params : List (String × String)), params ≠ [] →
        goContainsChar url_ '?' = false →
        addParams url_ params = url_ ++ "?" ++ paramsToString params)
    ∧ (∀ (url_ : String) (params : List (String × String)), params ≠ [] →
        goContainsChar url_ '?' = true →
        (goHasSuffix url_ "?" = true ∨ goHasSuffix url_ "&" = true) →
        addParams url_ params = url_ ++ paramsToString params)
    ∧ (∀ (url_ : String) (params : List (String × String)), params ≠ [] →
        goContainsChar url_ '?' = true →
        goHasSuffix url_ "?" = false → goHasSuffix url_ "&" = false →
        addParams url_ params = url_ ++ "&" ++ paramsToString params) := by
  refine ⟨rfl, rfl, ?_, ?_, ?_, ?_⟩
  · intro url_
    simp [addParams]
  · intro url_ params hne hc
    unfold addParams
    rw [if_neg (fun h => hne (List.length_eq_zero.mp h))]
    dsimp only
    rw [if_pos hc]
    have hsuf : (goHasSuffix (url_ ++ "?") "?" || goHasSuffix (url_ ++ "?") "&") = true := by
      rw [goHasSuffix_append_qmark]
      exact Bool.true_or _
    rw [if_pos hsuf]
  · intro url_ params hne hc hsuf
    unfold addParams
    rw [if_neg (fun h => hne (List.length_eq_zero.mp h))]
    dsimp only
    have hurl : (if goContainsChar url_ '?' = false then url_ ++ "?" else url_) = url_ :=
      if_neg (by rw [hc]; exact fun h => Bool.noConfusion h)
    rw [hurl]
    have hsuf2 : (goHasSuffix url_ "?" || goHasSuffix url_ "&") = true := by
      rcases hsuf with h | h
      · rw [h]; exact Bool.true_or _
      · rw [h]; exact Bool.or_true _
    rw [if_pos hsuf2]
  · intro url_ params hne hc h1 h2
    unfold addParams
    rw [if_neg (fun h => hne (List.length_eq_zero.mp h))]
    dsimp only
    have hurl : (if goContainsChar url_ '?' = false then url_ ++ "?" else url_) = url_ :=
      if_neg (by rw [hc]; exact fun h => Bool.noConfusion h)
    rw [hurl]
    rw [if_neg (by rw [h1, h2]; exact fun h => Bool.noConfusion h)]

/-- Witness for C6 clause 4 at `GET("http://x/y", {"b":"2"})`. -/
theorem get_appends_encoded_params_witness :
    addParams "http://x/y" [("b", "2")] = "http://x/y" ++ "?" ++ paramsToString [("b", "2")] :=
  get_appends_encoded_params.2.2.2.1 "http://x/y" [("b", "2")]
    (by decide) (by decide)

/-! ## `@`-key detection lemmas -/

theorem checkParamFile_eq_any (params : List (String × String))
    (hkeys : ∀ kv ∈ params, kv.1 ≠ "") :
    checkParamFile params = some (params.any (fun kv => kv.1.data.head? == some '@')) := by
  induction params with
  | nil => rfl
  | cons hd tl ih =>
    obtain ⟨k, v⟩ := hd
    have hk : k ≠ "" := hkeys (k, v) (List.mem_cons_self _ _)
    have ih' := ih (fun kv hm => hkeys kv (List.mem_cons_of_mem _ hm))
    cases hcd : k.data with
    | nil => exact absurd (string_eq_empty_of_data_nil k hcd) hk
    | cons c cs =>
      by_cases hat : c = '@'
      · subst hat
        simp [checkParamFile, hcd, List.any_cons]
      · simp [checkParamFile, hcd, List.any_cons, hat, ih']

/-- C7: under the (panic-freedom) precondition that every parameter key is
non-empty, `Post` delegates to `PostMultipart` exactly when some key starts
with `@`; with no such key it issues a `Do` whose body is the URL-encoded
parameters and whose header map carries
`Content-Type: application/x-www-form-urlencoded`. -/
theorem post_routes_on_at_prefixed_keys (s : HttpClientState) (url_ : String)
    (params : List (String × String)) (parseOk : Bool)
    (hkeys : ∀ kv ∈ params, kv.1 ≠ "") :
    checkParamFile params = some (params.any (fun kv => kv.1.data.head? == some '@'))
    ∧ (params.any (fun kv => kv.1.data.head? == some '@') = true →
        Post s url_ params parseOk = PostMultipart s url_ params parseOk)
    ∧ (params.any (fun kv => kv.1.data.head? == some '@') = false →
        ∃ (s2 : HttpClientState) (hm : HeaderMap),
          Post s url_ params parseOk
            = some (Do s2 "POST" url_ (some hm) (some (paramsToString params)) parseOk)
          ∧ mlookup hm "Content-Type" = some "application/x-www-form-urlencoded") := by
  refine ⟨checkParamFile_eq_any params hkeys, ?_, ?_⟩
  · intro hany
    unfold Post
    rw [checkParamFile_eq_any params hkeys, hany]
  · intro hany
    unfold Post
    rw [checkParamFile_eq_any params hkeys, hany]
    cases hH : s.Headers with
    | some h => exact ⟨_, _, rfl, by rw [mlookup_mset, if_pos rfl]⟩
    | none => exact ⟨_, _, rfl, by rw [mlookup_mset, if_pos rfl]⟩

/-- Witness for C7: `POST` with key `"@file"` routes to multipart. -/
theorem post_routes_on_at_prefixed_keys_witness :
    Post (NewHttpClient []) "http://example.com/" [("@file", "p")] true
      = PostMultipart (NewHttpClient []) "http://example.com/" [("@file", "p")] true :=
  (post_routes_on_at_prefixed_keys (NewHttpClient []) "http://example.com/" [("@file", "p")] true
    (by decide)).2.1 (by decide)

/-- C10: `checkParamFile` and the `PostMultipart` loop index `k[0]` with no
length guard; they are panic-free exactly under the precondition that every
parameter key is non-empty, and a map containing the empty-string key makes
`Post`/`PostMultipart` panic (modelled as `none`) instead of returning. -/
theorem param_key_indexing_safety :
    (∀ params : List (String × String), (∀ kv ∈ params, kv.1 ≠ "") →
        (checkParamFile params).isSome = true ∧ (multipartParts params).isSome = true)
    ∧ checkParamFile [("", "v")] = none
    ∧ multipartParts [("", "v")] = none
    ∧ (∀ (s : HttpClientState) (url_ : String) (parseOk : Bool),
        Post s url_ [("", "v")] parseOk = none)
    ∧ (∀ (s : HttpClientState) (url_ : String) (parseOk : Bool),
        PostMultipart s url_ [("", "v")] parseOk = none) := by
  refine ⟨?_, rfl, rfl, fun s url_ parseOk => rfl, fun s url_ parseOk => rfl⟩
  intro params h
  induction params with
  | nil => exact ⟨rfl, rfl⟩
  | cons hd tl ih =>
    obtain ⟨k, v⟩ := hd
    have hk : k ≠ "" := h (k, v) (List.mem_cons_self _ _)
    have ih' := ih (fun kv hm => h kv (List.mem_cons_of_mem _ hm))
    cases hcd : k.data with
    | nil => exact absurd (string_eq_empty_of_data_nil k hcd) hk
    | cons c cs =>
      constructor
      · by_cases hat : c = '@' <;> simp [checkParamFile, hcd, hat, ih'.1]
      · by_cases hat : c = '@' <;> simp [multipartParts, hcd, hat, ih'.2]

/-- Witness for C10: a non-empty-keyed map is processed, the empty-keyed map
panics. -/
theorem param_key_indexing_safety_witness :
    ((checkParamFile [("a", "b")]).isSome = true ∧ (multipartParts [("a", "b")]).isSome = true)
    ∧ Post (NewHttpClient []) "http://example.com/" [("", "v")] true = none :=
  ⟨param_key_indexing_safety.1 [("a", "b")] (by decide),
   param_key_indexing_safety.2.2.2.1 (NewHttpClient []) "http://example.com/" true⟩

end GoHttpClient
